import Mathlib

/-!
Shallow embedding of the exam-preparation backend (FastAPI/SQLAlchemy services
and batch scripts) and proofs about the behaviour its specification claims.

Conventions of the embedding:
* Python floats are modelled as rationals (`ℚ`): every constant appearing in
  the scoring code (0.8, 1.0, 1.2, 1.5, 0.4, 0.6) is exactly representable and
  the claims are about the arithmetic formulas, not about bit-level rounding.
* Python's `round(x, 2)` is modelled as `round2` below, rounding half up via
  Mathlib's `round`; both the code embedding and the spec-side formulas use the
  same `round2`, and every monotonicity argument holds for any monotone
  rounding, so the half-even/half-up difference is immaterial here.
* Database tables are lists of row structures; query `order_by` on a column is
  modelled by a stable insertion sort on that column (ties keep table order).
* Machine integers (ids, counters) are `Nat`; none of the code relies on
  overflow.
-/

namespace OcrExam

/-- One question row (`questions` table, `app/models/question.py`); the content
columns (`title`, `body`, `year_list`) never influence the control flow of the
services under verification and are omitted. -/
structure Question where
  id : Nat
  difficulty : String
  is_mandatory : Bool
  exam_type : String
  deriving Repr, DecidableEq

/-- One item of a submission batch (`UserAnswerItem`, `app/models/user_answer.py`). -/
structure UserAnswerItem where
  question_id : Nat
  answer_id : Nat
  status : Bool
  deriving Repr, DecidableEq

/-- A submission batch (`UserAnswerCreate`). -/
structure UserAnswerCreate where
  user_id : String
  questions : List UserAnswerItem
  exam_type : String
  deriving Repr, DecidableEq

/-- One persisted `user_answers` row. -/
structure UserAnswerRow where
  id : Nat
  user_id : String
  question_id : Nat
  answer_id : Nat
  status : Bool
  exam_type : String
  created_at : Nat
  deriving Repr, DecidableEq

/-- One persisted `user_stats` row (`exam_api/app/models/user_stat.py`). -/
structure UserStatRow where
  id : Nat
  user_id : String
  total_score : ℚ
  correct_count : Nat
  wrong_count : Nat
  exam_type : String
  created_at : Nat
  deriving Repr, DecidableEq

/-- Payload for a frequent-question upsert (`FrequentQuestionCreate`). -/
structure FrequentQuestionCreate where
  question_id : Nat
  final_score : ℚ
  exam_type : String
  deriving Repr, DecidableEq

/-- One persisted `frequent_questions` row. -/
structure FrequentQuestionRow where
  id : Nat
  question_id : Nat
  final_score : ℚ
  exam_type : String
  created_at : Nat
  deriving Repr, DecidableEq

/-- The relational store: one list per table, plus the autoincrement sequences
and a logical clock supplying `created_at` values. -/
structure DB where
  questions : List Question
  user_answers : List UserAnswerRow
  user_stats : List UserStatRow
  frequent_questions : List FrequentQuestionRow
  next_answer_id : Nat
  next_stat_id : Nat
  next_fq_id : Nat
  clock : Nat
  deriving Repr, DecidableEq

/-- The `(difficulty, is_mandatory)` record stored per question id in the
`question_info` dict of `UserAnswerService.save_user_answers`. -/
structure QInfo where
  difficulty : String
  is_mandatory : Bool
  deriving Repr, DecidableEq

/-- The metadata map `question_info : Dict[int, Dict]` is modelled as an
association list; `List.lookup` returns the binding for a key. -/
abbrev QuestionInfo := List (Nat × QInfo)

/-- Python-dict insertion: overwrite any existing binding for the key, keeping
insertion order of the surviving keys irrelevant to `lookup`. -/
def dictInsert (m : QuestionInfo) (k : Nat) (v : QInfo) : QuestionInfo :=
  (m.filter (fun p => p.1 != k)) ++ [(k, v)]

/-- `question_info = {q.id: {"difficulty": .., "is_mandatory": ..} for q in questions}`
(`user_answer_service.py:66`). -/
def question_info_of (qs : List Question) : QuestionInfo :=
  qs.foldl (fun m q => dictInsert m q.id ⟨q.difficulty, q.is_mandatory⟩) []

/-- `difficulty_weights.get(difficulty, 1.0)` with
`difficulty_weights = {"LOW": 0.8, "MID": 1.0, "HIGH": 1.2}`
(`user_answer_service.py:138-142,159`). -/
def difficulty_weight_get (d : String) : ℚ :=
  if d = "LOW" then 4/5
  else if d = "MID" then 1
  else if d = "HIGH" then 6/5
  else 1

/-- `mandatory_weight = 1.5` (`user_answer_service.py:145`). -/
def mandatory_weight : ℚ := 3/2

/-- The per-answer weight: `diff_weight = difficulty_weights.get(...)`, then
`diff_weight *= mandatory_weight` when the question is mandatory
(`user_answer_service.py:159-163`). -/
def answer_weight (info : QInfo) : ℚ :=
  let dw := difficulty_weight_get info.difficulty
  if info.is_mandatory then dw * mandatory_weight else dw

/-- Python's `round(x, 2)`: round `100 * x` to the nearest integer and divide
back by 100. -/
def round2 (x : ℚ) : ℚ := ((round (100 * x) : ℤ) : ℚ) / 100

/-- The accumulation loop of `_calculate_score` (`user_answer_service.py:151-169`):
starting from `(weighted_score, total_weight)`, each answer whose question id
resolves in `question_info` adds its weight to `total_weight` and, when the
answer is correct, to `weighted_score`. -/
def score_step (question_info : QuestionInfo) (acc : ℚ × ℚ) (answer : UserAnswerItem) :
    ℚ × ℚ :=
  match question_info.lookup answer.question_id with
  | none => acc
  | some info =>
    let diff_weight := answer_weight info
    (if answer.status then acc.1 + 1 * diff_weight else acc.1, acc.2 + diff_weight)

/-- `UserAnswerService._calculate_score` (`user_answer_service.py:119-177`),
translated clause by clause: early 0.0 on an empty answer list, correct-rate
base score, weighted percentage from the accumulation loop, and the final
`round((base * 0.4) + (weighted * 0.6), 2)`. -/
def calculate_score (correct_count wrong_count : Nat) (question_info : QuestionInfo)
    (answers : List UserAnswerItem) : ℚ :=
  if answers.isEmpty then 0
  else
    let total_questions : Nat := correct_count + wrong_count
    let base_score : ℚ :=
      if total_questions > 0 then ((correct_count : ℚ) / (total_questions : ℚ)) * 100 else 0
    let acc := answers.foldl (score_step question_info) (0, 0)
    let weighted_percentage : ℚ := if acc.2 > 0 then acc.1 / acc.2 * 100 else 0
    round2 (base_score * (4/10) + weighted_percentage * (6/10))

/-- An answer item resolves iff its question id is bound in `question_info`
(the `if item.question_id not in question_info: continue` guard,
`user_answer_service.py:75` and `:153`). -/
def answer_resolved (question_info : QuestionInfo) (a : UserAnswerItem) : Bool :=
  (question_info.lookup a.question_id).isSome

/-- The session score as `save_user_answers` computes it: `correct_count` and
`wrong_count` are accumulated only over the items that resolved
(`user_answer_service.py:73-95`), then `_calculate_score` runs over the full
item list (`user_answer_service.py:97-100`). -/
def compute_session_score (question_info : QuestionInfo)
    (answers : List UserAnswerItem) : ℚ :=
  let accepted := answers.filter (answer_resolved question_info)
  calculate_score (accepted.countP (fun a => a.status))
    (accepted.countP (fun a => !a.status)) question_info answers

/-! ### Spec-side scoring formula (for the refinement claim C1)

The following definitions transcribe the sentences of the claim, not the code:
base over metadata-resolved answers, per-answer weight table, weighted
percentage over the resolved answers, `round(0.4*base + 0.6*weighted, 2)`,
and 0.0 for an empty answer list. -/

/-- Spec wording: "difficulty_weight LOW=0.8, MID=1.0, HIGH=1.2 and 1.0 for any
other difficulty value", times "1.5 if is_mandatory else 1.0". -/
def spec_answer_weight (info : QInfo) : ℚ :=
  (if info.difficulty = "LOW" then 4/5
   else if info.difficulty = "MID" then 1
   else if info.difficulty = "HIGH" then 6/5
   else 1) * (if info.is_mandatory then 3/2 else 1)

/-- The weight the spec assigns to an answer through the metadata map (0 for an
answer that is excluded entirely because its question id is absent). -/
def spec_weight_of (question_info : QuestionInfo) (a : UserAnswerItem) : ℚ :=
  match question_info.lookup a.question_id with
  | some info => spec_answer_weight info
  | none => 0

/-- The session-score formula exactly as the claim states it. -/
def spec_session_score (question_info : QuestionInfo)
    (answers : List UserAnswerItem) : ℚ :=
  if answers = [] then 0
  else
    let resolved := answers.filter (fun a => (question_info.lookup a.question_id).isSome)
    let total : Nat := resolved.length
    let correct : Nat := resolved.countP (fun a => a.status)
    let base : ℚ := if total = 0 then 0 else 100 * (correct : ℚ) / (total : ℚ)
    let wAll : ℚ := (resolved.map (spec_weight_of question_info)).sum
    let wCorrect : ℚ :=
      ((resolved.filter (fun a => a.status)).map (spec_weight_of question_info)).sum
    let weighted : ℚ := if wAll = 0 then 0 else 100 * wCorrect / wAll
    round2 ((4/10) * base + (6/10) * weighted)

/-! ### Closed form of the scoring loop -/

/-- The weight the code attaches to an answer (0 when the question id does not
resolve, in which case the loop skips the answer). -/
def weight_of (question_info : QuestionInfo) (a : UserAnswerItem) : ℚ :=
  match question_info.lookup a.question_id with
  | some info => answer_weight info
  | none => 0

/-- `weighted_score` after the loop: the summed weights of the resolved,
correct answers. -/
def weighted_sum_of (question_info : QuestionInfo) (answers : List UserAnswerItem) : ℚ :=
  ((answers.filter (fun a => answer_resolved question_info a && a.status)).map
    (weight_of question_info)).sum

/-- `total_weight` after the loop: the summed weights of all resolved answers. -/
def total_weight_of (question_info : QuestionInfo) (answers : List UserAnswerItem) : ℚ :=
  ((answers.filter (answer_resolved question_info)).map (weight_of question_info)).sum

/-! ### SQL ordering model -/

/-- Stable insertion: `x` is placed before the first element it may precede
under `le`. -/
def insertOrd {α : Type} (le : α → α → Bool) (x : α) : List α → List α
  | [] => [x]
  | y :: ys => if le x y then x :: y :: ys else y :: insertOrd le x ys

/-- Stable sort by repeated insertion; models SQL `ORDER BY` (and Python's
stable `sort`): when `le x y` means "`x` may come before `y`" and `le` is a
total preorder, ties keep their original relative order. -/
def sortOrd {α : Type} (le : α → α → Bool) : List α → List α
  | [] => []
  | x :: xs => insertOrd le x (sortOrd le xs)

/-- `ORDER BY <nat key> DESC`. -/
def sortDescNat {α : Type} (key : α → Nat) : List α → List α :=
  sortOrd (fun x y => decide (key y ≤ key x))

/-- `ORDER BY <nat key> ASC`. -/
def sortAscNat {α : Type} (key : α → Nat) : List α → List α :=
  sortOrd (fun x y => decide (key x ≤ key y))

/-- `ORDER BY <rational key> DESC` (used for `final_score`). -/
def sortDescQ {α : Type} (key : α → ℚ) : List α → List α :=
  sortOrd (fun x y => decide (key y ≤ key x))

/-! ### `UserAnswerService.save_user_answers` (`user_answer_service.py:27-116`) -/

/-- `max(existing_stats, key=lambda stat: stat.total_score)`: Python's `max`
scans left to right and keeps the first element attaining the maximal key. -/
def maxByScore (l : List UserStatRow) : Option UserStatRow :=
  l.foldl
    (fun acc s =>
      match acc with
      | none => some s
      | some m => if s.total_score > m.total_score then some s else some m)
    none

/-- The insertion loop (`user_answer_service.py:73-95`): items whose question
id is missing from `question_info` are skipped (`continue`); every other item
becomes a `UserAnswer` row whose id is drawn from the autoincrement sequence
(`db.flush()`), its id is recorded, and the correct/wrong counters advance.
Returns `(rows, user_answer_ids, correct_count, wrong_count)`. -/
def answers_loop (question_info : QuestionInfo) (user_id exam_type : String)
    (clock : Nat) : Nat → List UserAnswerItem →
      List UserAnswerRow × List Nat × Nat × Nat
  | _, [] => ([], [], 0, 0)
  | next_id, item :: rest =>
    if (question_info.lookup item.question_id).isSome then
      let row : UserAnswerRow :=
        ⟨next_id, user_id, item.question_id, item.answer_id, item.status, exam_type, clock⟩
      let r := answers_loop question_info user_id exam_type clock (next_id + 1) rest
      (row :: r.1, next_id :: r.2.1,
       (if item.status then r.2.2.1 + 1 else r.2.2.1),
       (if item.status then r.2.2.2 else r.2.2.2 + 1))
    else answers_loop question_info user_id exam_type clock next_id rest

/-- Return value of `save_user_answers`. -/
structure SaveResult where
  user_answer_ids : List Nat
  new_stat : UserStatRow
  max_stat : Option UserStatRow
  before_stat : Option UserStatRow
  db : DB
  deriving Repr

/-- The questions the service loads for a batch:
`db.query(Question).filter(Question.id.in_(question_ids))`
(`user_answer_service.py:61-63`). -/
def queried_questions (db : DB) (data : UserAnswerCreate) : List Question :=
  db.questions.filter
    (fun q => (data.questions.map (fun i => i.question_id)).contains q.id)

/-- `UserAnswerService.save_user_answers` (`user_answer_service.py:27-116`):
load prior stats newest-first, take `before_stat` and the first-maximal
`max_stat`, resolve metadata for the batch's question ids, run the insertion
loop, score the batch, append the new stat snapshot, and commit. -/
def save_user_answers (db : DB) (data : UserAnswerCreate) : SaveResult :=
  let existing_stats :=
    sortDescNat (fun s => s.created_at)
      (db.user_stats.filter
        (fun s => s.user_id == data.user_id && s.exam_type == data.exam_type))
  let before_stat := existing_stats.head?
  let max_stat := maxByScore existing_stats
  let question_info := question_info_of (queried_questions db data)
  let r := answers_loop question_info data.user_id data.exam_type db.clock
    db.next_answer_id data.questions
  let total_score := calculate_score r.2.2.1 r.2.2.2 question_info data.questions
  let new_stat : UserStatRow :=
    ⟨db.next_stat_id, data.user_id, total_score, r.2.2.1, r.2.2.2, data.exam_type, db.clock⟩
  ⟨r.2.1, new_stat, max_stat, before_stat,
   { db with
      user_answers := db.user_answers ++ r.1,
      user_stats := db.user_stats ++ [new_stat],
      next_answer_id := db.next_answer_id + r.1.length,
      next_stat_id := db.next_stat_id + 1,
      clock := db.clock + 1 }⟩

/-- An item's question id references an existing `Question` row. -/
def question_known (db : DB) (it : UserAnswerItem) : Bool :=
  db.questions.any (fun q => q.id == it.question_id)

/-- The content of a persisted `UserAnswer` row, id and timestamp stripped. -/
def answer_row_data (r : UserAnswerRow) : String × Nat × Nat × Bool × String :=
  (r.user_id, r.question_id, r.answer_id, r.status, r.exam_type)

/-- The row content `save_user_answers` is specified to persist for an
accepted item. -/
def item_row_data (uid et : String) (it : UserAnswerItem) :
    String × Nat × Nat × Bool × String :=
  (uid, it.question_id, it.answer_id, it.status, et)

/-- Fixture: a store with two questions (ids 1 and 2) of exam type "E". -/
def exampleDb : DB :=
  ⟨[⟨1, "MID", false, "E"⟩, ⟨2, "HIGH", true, "E"⟩], [], [], [], 0, 0, 0, 0⟩

/-- Fixture: a batch with one unknown question id (5) and two known ones. -/
def exampleBatch : UserAnswerCreate :=
  ⟨"u", [⟨5, 0, true⟩, ⟨1, 0, true⟩, ⟨2, 0, false⟩], "E"⟩

/-! ### `WeakQuestionService.get_weak_question_ids` (`weak_question_service.py:26-104`) -/

/-- SQL `GROUP BY question_id` with `COUNT(id)`: the distinct question ids in
first-occurrence order, each paired with its multiplicity. -/
def groupCounts (rows : List UserAnswerRow) : List (Nat × Nat) :=
  ((rows.map (fun r => r.question_id)).eraseDups).map
    (fun q => (q, rows.countP (fun r => r.question_id == q)))

/-- `priority = difficulty_score * mandatory_score`
(`weak_question_service.py:85-94`): MID=2, HIGH=3, 1 otherwise; mandatory
doubles it. -/
def priority_of (q : Question) : Nat :=
  (if q.difficulty == "MID" then 2 else if q.difficulty == "HIGH" then 3 else 1) *
    (if q.is_mandatory then 2 else 1)

/-- Step (a) of the weak-question query (`weak_question_service.py:47-58`):
the user's incorrect answers for the exam type, grouped by question id with
counts, ordered by count descending, limited to `2*limit`. -/
def incorrect_counts (db : DB) (user_id exam_type : String) (limit : Nat) :
    List (Nat × Nat) :=
  (sortDescNat (fun p => p.2)
    (groupCounts (db.user_answers.filter
      (fun a => a.user_id == user_id && a.exam_type == exam_type &&
        a.status == false)))).take (limit * 2)

/-- `WeakQuestionService.get_weak_question_ids` (`weak_question_service.py:26-104`). -/
def get_weak_question_ids (db : DB) (user_id exam_type : String) (limit : Nat) :
    List Nat :=
  let incorrect_question_ids :=
    (incorrect_counts db user_id exam_type limit).map (fun p => p.1)
  if incorrect_question_ids.isEmpty then
    ((sortAscNat (fun q => q.id)
        (db.questions.filter
          (fun q => q.exam_type == exam_type && q.difficulty == "HIGH"))).take
      limit).map (fun q => q.id)
  else
    let questions := db.questions.filter
      (fun q => incorrect_question_ids.contains q.id)
    let question_priorities := questions.map (fun q => (q.id, priority_of q))
    ((sortDescNat (fun p => p.2) question_priorities).take limit).map (fun p => p.1)

/-! ### `FrequentQuestionService` (`frequent_question_service.py`) -/

/-- The question ids of the caller's 20 most recent `UserAnswer` rows for the
exam type (`frequent_question_service.py:44-52`). -/
def recent_question_ids (db : DB) (user_id exam_type : String) : List Nat :=
  ((sortDescNat (fun a => a.created_at)
      (db.user_answers.filter
        (fun a => a.user_id == user_id && a.exam_type == exam_type))).take 20).map
    (fun a => a.question_id)

/-- `FrequentQuestionService.get_frequent_question_ids`
(`frequent_question_service.py:26-66`): optionally exclude recently answered
question ids (the exclusion filter is only applied when the recent list is
non-empty), then order the exam type's `FrequentQuestion` rows by
`final_score` descending and take `limit`. -/
def get_frequent_question_ids (db : DB) (user_id exam_type : String)
    (limit : Nat) (exclude_recent_answers : Bool) : List Nat :=
  let recent := if exclude_recent_answers then
      recent_question_ids db user_id exam_type
    else []
  let base := db.frequent_questions.filter (fun fq => fq.exam_type == exam_type)
  let filtered := if exclude_recent_answers && !recent.isEmpty then
      base.filter (fun fq => !recent.contains fq.question_id)
    else base
  ((sortDescQ (fun fq => fq.final_score) filtered).take limit).map
    (fun fq => fq.question_id)

/-- Update the first element satisfying `p` (SQLAlchemy's `.first()` row, then
a field assignment on the managed object). -/
def updateFirst {α : Type} (p : α → Bool) (f : α → α) : List α → List α
  | [] => []
  | x :: xs => if p x then f x :: xs else x :: updateFirst p f xs

/-- `FrequentQuestionService.create_frequent_question`
(`frequent_question_service.py:117-152`): `ValueError` when the question id
does not exist; otherwise overwrite `final_score` on the first existing row
for `(question_id, exam_type)`, or append a new row; then commit. -/
def create_frequent_question (db : DB) (fq : FrequentQuestionCreate) :
    Except String DB :=
  if db.questions.any (fun q => q.id == fq.question_id) then
    if (db.frequent_questions.find?
        (fun r => r.question_id == fq.question_id &&
          r.exam_type == fq.exam_type)).isSome then
      .ok { db with frequent_questions :=
        (updateFirst
          (fun r => r.question_id == fq.question_id && r.exam_type == fq.exam_type)
          (fun r => { r with final_score := fq.final_score })
          db.frequent_questions) }
    else
      .ok { db with
        frequent_questions := db.frequent_questions ++
          [⟨db.next_fq_id, fq.question_id, fq.final_score, fq.exam_type, db.clock⟩],
        next_fq_id := db.next_fq_id + 1,
        clock := db.clock + 1 }
  else .error "question does not exist"

/-! ### Transaction model (for the atomicity claims)

A SQLAlchemy session holds a `current` in-transaction view; other readers see
only `committed`. `commit` publishes `current`; on an exception, nothing was
committed by the failing statement and the request teardown
(`get_db`'s `finally: db.close()`) rolls the open transaction back. -/

/-- One open database session. -/
structure TxSession where
  committed : DB
  current : DB
  deriving Repr, DecidableEq

/-- The writes `save_user_answers` issues before its single `db.commit()`
(`user_answer_service.py:86-113`): one `UserAnswer` insert per accepted item
(each flush draws the next id), then the `UserStat` insert. -/
def save_write_steps (db : DB) (data : UserAnswerCreate) : List (DB → DB) :=
  let question_info := question_info_of (queried_questions db data)
  let r := answers_loop question_info data.user_id data.exam_type db.clock
    db.next_answer_id data.questions
  let new_stat : UserStatRow := ⟨db.next_stat_id, data.user_id,
    calculate_score r.2.2.1 r.2.2.2 question_info data.questions,
    r.2.2.1, r.2.2.2, data.exam_type, db.clock⟩
  (r.1.map (fun row => fun d =>
    { d with
        user_answers := d.user_answers ++ [row],
        next_answer_id := d.next_answer_id + 1 })) ++
  [fun d =>
    { d with
        user_stats := d.user_stats ++ [new_stat],
        next_stat_id := d.next_stat_id + 1,
        clock := d.clock + 1 }]

/-- Run write steps inside one transaction. Step `i` mutates only the
`current` view; an injected failure at index `failAt` raises and the session
rolls back (`current := committed`). When every step succeeds the terminal
`commit` publishes `current`; injecting the failure at index `steps.length`
models the commit itself failing. The boolean reports completion. -/
def runTx : TxSession → List (DB → DB) → Nat → Option Nat → TxSession × Bool
  | s, [], i, failAt =>
    if failAt = some i then ({ s with current := s.committed }, false)
    else ({ committed := s.current, current := s.current }, true)
  | s, st :: rest, i, failAt =>
    if failAt = some i then ({ s with current := s.committed }, false)
    else runTx { s with current := st s.current } rest (i + 1) failAt

/-- `save_user_answers` as one transaction with an injected failure point. -/
def save_user_answers_tx (s : TxSession) (data : UserAnswerCreate)
    (failAt : Option Nat) : TxSession × Bool :=
  runTx s (save_write_steps s.current data) 0 failAt

/-- `FrequentQuestionService.batch_create_frequent_questions`
(`frequent_question_service.py:155-173`) with an injected failure point: each
item runs through `create_frequent_question`, which commits on success; a
`ValueError` (unknown question id) is caught and the item skipped; a storage
failure at item index `failAt` raises out of the loop, rolling back only the
in-flight item. Returns the session and `updated_count`. -/
def batch_create_tx : TxSession → List FrequentQuestionCreate → Nat → Option Nat →
    TxSession × Nat
  | s, [], _, _ => (s, 0)
  | s, it :: rest, i, failAt =>
    if failAt = some i then ({ s with current := s.committed }, 0)
    else
      match create_frequent_question s.current it with
      | .error _ => batch_create_tx s rest (i + 1) failAt
      | .ok db1 =>
        let r := batch_create_tx ⟨db1, db1⟩ rest (i + 1) failAt
        (r.1, r.2 + 1)

/-! ### `CognitoJWTVerifier.verify_token` (`app/utils/auth.py:67-121`) -/

/-- The claims the verifier reads. `payload.get("exp", 0)` motivates the
`Option Int`. -/
structure TokenPayload where
  sub : String
  exp : Option Int
  deriving Repr, DecidableEq

/-- The verification-relevant content of a bearer token. The RS256 signature,
audience and issuer checks happen inside the `jose` library (out of scope per
the spec), so their outcomes are abstracted as booleans carried by the
token. -/
structure Token where
  kid : String
  payload : TokenPayload
  sig_valid : Bool
  aud_ok : Bool
  iss_ok : Bool
  deriving Repr, DecidableEq

/-- `jose.jwt.decode(token, key, algorithms=["RS256"], audience=..., issuer=...)`
(`auth.py:95-101`): raises `JWTError` on a bad signature, audience or issuer,
and `ExpiredSignatureError` when a present `exp` is before `now`. -/
def jose_decode (now : Int) (tok : Token) : Except String TokenPayload :=
  if !tok.sig_valid then .error "signature"
  else if !tok.aud_ok then .error "audience"
  else if !tok.iss_ok then .error "issuer"
  else
    match tok.payload.exp with
    | some e => if e < now then .error "expired" else .ok tok.payload
    | none => .ok tok.payload

/-- `CognitoJWTVerifier.verify_token` (`auth.py:67-121`): look the key id up
in the cached set, refreshing once on a miss (`keysRefreshed` is the set the
refresh would fetch); decode through jose; re-check
`payload.get("exp", 0) < time.time()`; every failure raises HTTP 401. -/
def verify_token (keys keysRefreshed : List String) (now : Int) (tok : Token) :
    Except Nat TokenPayload :=
  if !(keys.contains tok.kid) && !(keysRefreshed.contains tok.kid) then .error 401
  else
    match jose_decode now tok with
    | .error _ => .error 401
    | .ok payload =>
      if payload.exp.getD 0 < now then .error 401
      else .ok payload

/-! ### `MarkdownImporter.extract_question_number`
(`src/markdown_importer.py:145-169`) and the id derivation of
`insert_markdown` (`src/markdown_importer.py:186-192`) -/

/-- Greedy `\d+` starting at the head of the character list. -/
def digitRun (l : List Char) : List Char := l.takeWhile (fun c => c.isDigit)

/-- Leftmost match of `re.search(r'_page_(\d+)', ...)`: the capture is the
maximal digit run after the first `_page_` that is followed by a digit. -/
def pageCapture : List Char → Option (List Char)
  | [] => none
  | c :: cs =>
    if (c :: cs).take 6 == "_page_".toList &&
        !(digitRun ((c :: cs).drop 6)).isEmpty then
      some (digitRun ((c :: cs).drop 6))
    else pageCapture cs

/-- Leftmost match of `re.search(r'[_-](\d+)', ...)`. -/
def sepDigitsCapture : List Char → Option (List Char)
  | [] => none
  | c :: cs =>
    if (c == '_' || c == '-') && !(digitRun cs).isEmpty then some (digitRun cs)
    else sepDigitsCapture cs

/-- Match of `re.search(r'^(\d+)', ...)`. -/
def leadingDigits (l : List Char) : Option (List Char) :=
  if (digitRun l).isEmpty then none else some (digitRun l)

/-- `MarkdownImporter.extract_question_number`: try the three patterns in
order and fall back to the literal string `"000"`. -/
def extract_question_number (filename : String) : String :=
  match pageCapture filename.toList with
  | some d => String.mk d
  | none =>
    match sepDigitsCapture filename.toList with
    | some d => String.mk d
    | none =>
      match leadingDigits filename.toList with
      | some d => String.mk d
      | none => "000"

/-- Python's `str.zfill` restricted to the unsigned digit strings produced
above: left-pad with `'0'` up to length `n`. -/
def zfill (n : Nat) (s : String) : String :=
  if n ≤ s.length then s
  else String.mk (List.replicate (n - s.length) '0') ++ s

/-- The question-id derivation of `insert_markdown`:
`f"{self.question_prefix}{question_number.zfill(3)}"`. -/
def derive_question_id (prefixStr : String) (filename : String) : String :=
  prefixStr ++ zfill 3 (extract_question_number filename)

/-- Modelled from the spec: the "raw filename stem" (the first component of
`os.path.splitext`) that the spec names as the fallback identifier; for names
with a regular `name.ext` shape this is everything before the last dot. -/
def filenameStem (s : String) : String :=
  match s.toList.reverse.dropWhile (fun c => !(c == '.')) with
  | [] => s
  | _ :: rest => String.mk rest.reverse

/-- Fixture: the example store with one recorded incorrect answer for
question 2 and one correct answer for question 1. -/
def exampleDb2 : DB :=
  { exampleDb with
      user_answers := [⟨0, "u", 2, 1, false, "E", 0⟩, ⟨1, "u", 1, 1, true, "E", 1⟩],
      next_answer_id := 2,
      clock := 2 }

/-- Apply `f` to the head only (the effect of an in-place update of the first
matching row, seen through a filter for the matching predicate). -/
def mapHead {α : Type} (f : α → α) : List α → List α
  | [] => []
  | x :: xs => f x :: xs

lemma spec_answer_weight_eq (i : QInfo) : spec_answer_weight i = answer_weight i := by
  cases hm : i.is_mandatory <;>
    simp [spec_answer_weight, answer_weight, difficulty_weight_get, mandatory_weight, hm]

lemma spec_weight_of_eq (question_info : QuestionInfo) (a : UserAnswerItem) :
    spec_weight_of question_info a = weight_of question_info a := by
  unfold spec_weight_of weight_of
  cases question_info.lookup a.question_id <;> simp [spec_answer_weight_eq]

lemma difficulty_weight_get_pos (d : String) : 0 < difficulty_weight_get d := by
  unfold difficulty_weight_get
  split
  · norm_num
  split
  · norm_num
  split
  · norm_num
  · norm_num

lemma answer_weight_pos (i : QInfo) : 0 < answer_weight i := by
  unfold answer_weight mandatory_weight
  have h := difficulty_weight_get_pos i.difficulty
  split
  · exact mul_pos h (by norm_num)
  · exact h

lemma weight_of_nonneg (question_info : QuestionInfo) (a : UserAnswerItem) :
    0 ≤ weight_of question_info a := by
  unfold weight_of
  cases question_info.lookup a.question_id with
  | none => simp
  | some i => exact le_of_lt (answer_weight_pos i)

lemma total_weight_nonneg (question_info : QuestionInfo) (answers : List UserAnswerItem) :
    0 ≤ total_weight_of question_info answers := by
  unfold total_weight_of
  refine List.sum_nonneg ?_
  intro x hx
  rcases List.mem_map.mp hx with ⟨a, _, rfl⟩
  exact weight_of_nonneg question_info a

/-- The loop of `_calculate_score`, run from an arbitrary accumulator, lands on
the two weight sums. -/
lemma score_foldl (question_info : QuestionInfo) (answers : List UserAnswerItem) :
    ∀ c w : ℚ,
      answers.foldl (score_step question_info) (c, w) =
        (c + weighted_sum_of question_info answers,
         w + total_weight_of question_info answers) := by
  induction answers with
  | nil => intro c w; simp [weighted_sum_of, total_weight_of]
  | cons a l ih =>
    intro c w
    rw [List.foldl_cons]
    cases h : question_info.lookup a.question_id with
    | none =>
      have hstep : score_step question_info (c, w) a = (c, w) := by
        simp [score_step, h]
      rw [hstep, ih]
      simp [weighted_sum_of, total_weight_of, answer_resolved, h]
    | some i =>
      cases hs : a.status with
      | false =>
        have hstep : score_step question_info (c, w) a = (c, w + answer_weight i) := by
          simp [score_step, h, hs]
        rw [hstep, ih]
        simp [weighted_sum_of, total_weight_of, answer_resolved, weight_of, h, hs]
        ring
      | true =>
        have hstep : score_step question_info (c, w) a =
            (c + 1 * answer_weight i, w + answer_weight i) := by
          simp [score_step, h, hs]
        rw [hstep, ih]
        simp [weighted_sum_of, total_weight_of, answer_resolved, weight_of, h, hs]
        constructor <;> ring

/-- Closed form of `compute_session_score`: correct count, resolved count, and
the two weight sums fully determine the result. -/
lemma compute_session_score_eq (question_info : QuestionInfo)
    (answers : List UserAnswerItem) :
    compute_session_score question_info answers =
      if answers.isEmpty then 0
      else
        round2
          ((if 0 < (answers.filter (answer_resolved question_info)).length then
              (((answers.filter (answer_resolved question_info)).countP
                  (fun a => a.status) : ℚ) /
                ((answers.filter (answer_resolved question_info)).length : ℚ)) * 100
            else 0) * (4/10) +
           (if 0 < total_weight_of question_info answers then
              weighted_sum_of question_info answers /
                total_weight_of question_info answers * 100
            else 0) * (6/10)) := by
  unfold compute_session_score calculate_score
  cases he : answers.isEmpty with
  | true => simp [he]
  | false =>
    simp only [he, if_false, Bool.false_eq_true]
    rw [score_foldl]
    have hlen : (answers.filter (answer_resolved question_info)).countP (fun a => a.status) +
        (answers.filter (answer_resolved question_info)).countP (fun a => !a.status) =
        (answers.filter (answer_resolved question_info)).length := by
      have hp : (fun (a : UserAnswerItem) => !a.status) =
          (fun (a : UserAnswerItem) => decide ¬a.status = true) := by
        funext a; cases a.status <;> simp
      rw [hp, List.length_eq_countP_add_countP (fun a => a.status)]
    simp only [zero_add, hlen]

/-- C1: for every list of answers and every question-metadata map, the session
score equals `round(0.4*base + 0.6*weighted, 2)` with base the correct rate
over the metadata-resolved answers (0 when none resolve), per-answer weight
`difficulty_weight * (1.5 if mandatory)` with LOW=0.8, MID=1.0, HIGH=1.2 and
1.0 otherwise, weighted the weight-fraction of correct answers (0 when the
denominator is 0), unresolved answers excluded from both, and 0.0 for an empty
answer list. -/
theorem session_score_matches_spec (question_info : QuestionInfo)
    (answers : List UserAnswerItem) :
    compute_session_score question_info answers =
      spec_session_score question_info answers := by
  by_cases hnil : answers = []
  · subst hnil
    simp [compute_session_score, calculate_score, spec_session_score]
  · have hne : answers.isEmpty = false := by
      cases answersloop : answers with
      | nil => exact absurd answersloop hnil
      | cons a l => rfl
    rw [compute_session_score_eq]
    unfold spec_session_score
    have hw : spec_weight_of question_info = weight_of question_info :=
      funext (spec_weight_of_eq question_info)
    have hres : answer_resolved question_info =
        fun a => (question_info.lookup a.question_id).isSome := rfl
    unfold weighted_sum_of total_weight_of
    simp only [hne, if_neg hnil, Bool.false_eq_true, if_false, hres, hw]
    set F := answers.filter (fun a => (question_info.lookup a.question_id).isSome) with hF
    have hS : answers.filter
          (fun a => (question_info.lookup a.question_id).isSome && a.status) =
        F.filter (fun a => a.status) := by
      rw [hF, List.filter_filter]
      congr 1
      funext a
      exact Bool.and_comm _ _
    have hT0 : 0 ≤ (F.map (weight_of question_info)).sum := by
      refine List.sum_nonneg ?_
      intro x hx
      rcases List.mem_map.mp hx with ⟨a, _, rfl⟩
      exact weight_of_nonneg question_info a
    congr 1
    rw [hS]
    set T := (F.map (weight_of question_info)).sum with hTdef
    rcases Nat.eq_zero_or_pos F.length with hl | hl
    · have hl' : ¬ 0 < F.length := by omega
      rcases eq_or_lt_of_le hT0 with ht | ht
      · have ht' : ¬ 0 < T := by rw [← ht]; exact lt_irrefl 0
        rw [if_neg hl', if_pos hl, if_neg ht', if_pos ht.symm]; ring
      · have ht' : ¬ T = 0 := ne_of_gt ht
        rw [if_neg hl', if_pos hl, if_pos ht, if_neg ht']; ring
    · have hl' : ¬ F.length = 0 := by omega
      rcases eq_or_lt_of_le hT0 with ht | ht
      · have ht' : ¬ 0 < T := by rw [← ht]; exact lt_irrefl 0
        rw [if_pos hl, if_neg hl', if_neg ht', if_pos ht.symm]; ring
      · have ht' : ¬ T = 0 := ne_of_gt ht
        rw [if_pos hl, if_neg hl', if_pos ht, if_neg ht']; ring

lemma round_q_mono {x y : ℚ} (h : x ≤ y) : round x ≤ round y := by
  rw [round_eq, round_eq]
  exact Int.floor_le_floor (by linarith)

lemma round2_mono {x y : ℚ} (h : x ≤ y) : round2 x ≤ round2 y := by
  unfold round2
  have := round_q_mono (show 100 * x ≤ 100 * y by linarith)
  have hcast : ((round (100 * x) : ℤ) : ℚ) ≤ ((round (100 * y) : ℤ) : ℚ) :=
    Int.cast_le.mpr this
  linarith

/-- C6: flipping any answer on a metadata-resolved question from incorrect to
correct, holding every other answer fixed, never decreases the session score. -/
theorem session_score_monotone (question_info : QuestionInfo)
    (l1 l2 : List UserAnswerItem) (q aid : Nat) (inf : QInfo)
    (h : question_info.lookup q = some inf) :
    compute_session_score question_info (l1 ++ ⟨q, aid, false⟩ :: l2) ≤
      compute_session_score question_info (l1 ++ ⟨q, aid, true⟩ :: l2) := by
  have hres : ∀ b : Bool, answer_resolved question_info ⟨q, aid, b⟩ = true := by
    intro b; simp [answer_resolved, h]
  have hne : ∀ b : Bool, (l1 ++ (⟨q, aid, b⟩ : UserAnswerItem) :: l2).isEmpty = false := by
    intro b; cases l1 <;> rfl
  have hfilter : ∀ b : Bool,
      (l1 ++ (⟨q, aid, b⟩ : UserAnswerItem) :: l2).filter (answer_resolved question_info) =
        l1.filter (answer_resolved question_info) ++ (⟨q, aid, b⟩ : UserAnswerItem) ::
          l2.filter (answer_resolved question_info) := by
    intro b
    rw [List.filter_append, List.filter_cons]
    simp [hres b]
  have hT : ∀ b : Bool,
      total_weight_of question_info (l1 ++ (⟨q, aid, b⟩ : UserAnswerItem) :: l2) =
        total_weight_of question_info l1 + answer_weight inf +
          total_weight_of question_info l2 := by
    intro b
    unfold total_weight_of
    rw [hfilter b]
    simp [weight_of, h]
    ring
  have hS : ∀ b : Bool,
      weighted_sum_of question_info (l1 ++ (⟨q, aid, b⟩ : UserAnswerItem) :: l2) =
        weighted_sum_of question_info l1 + (if b then answer_weight inf else 0) +
          weighted_sum_of question_info l2 := by
    intro b
    unfold weighted_sum_of
    rw [List.filter_append, List.filter_cons]
    cases b
    · simp [hres, weight_of, h]
    · simp [hres, weight_of, h]
      ring
  have hw : 0 < answer_weight inf := answer_weight_pos inf
  have hT1 : 0 ≤ total_weight_of question_info l1 := total_weight_nonneg _ _
  have hT2 : 0 ≤ total_weight_of question_info l2 := total_weight_nonneg _ _
  rw [compute_session_score_eq, compute_session_score_eq]
  simp only [hne, Bool.false_eq_true, if_false]
  apply round2_mono
  rw [hfilter false, hfilter true, hT false, hT true, hS false, hS true]
  have hTpos : 0 < total_weight_of question_info l1 + answer_weight inf +
      total_weight_of question_info l2 := by linarith
  rw [if_pos hTpos, if_pos hTpos]
  simp only [List.countP_append, List.countP_cons, List.length_append, List.length_cons]
  norm_num
  gcongr
  case h.h₁.h.h.hab.bc => linarith
  case h.h₂.h.h.hab.bc => linarith

/-- Witness for `session_score_monotone`: concrete metadata map and a
single-answer list, hypotheses discharged by evaluation. -/
theorem session_score_monotone_witness :
    (List.lookup 1 [(1, (⟨"MID", false⟩ : QInfo))] = some ⟨"MID", false⟩) ∧
    compute_session_score [(1, ⟨"MID", false⟩)]
        ([] ++ (⟨1, 0, false⟩ : UserAnswerItem) :: []) ≤
      compute_session_score [(1, ⟨"MID", false⟩)]
        ([] ++ (⟨1, 0, true⟩ : UserAnswerItem) :: []) :=
  ⟨by decide,
   session_score_monotone [(1, ⟨"MID", false⟩)] [] [] 1 0 ⟨"MID", false⟩ (by decide)⟩

/-! ### Lemmas about `save_user_answers` -/

lemma dictInsert_lookup (m : QuestionInfo) (k : Nat) (v : QInfo) (q : Nat) :
    (dictInsert m k v).lookup q = if q = k then some v else m.lookup q := by
  induction m with
  | nil =>
    by_cases h : q = k
    · simp [dictInsert, List.lookup, h]
    · have hb : (q == k) = false := by simp [h]
      simp [dictInsert, List.lookup, hb, h]
  | cons p rest ih =>
    by_cases hpk : p.1 = k
    · have hpb : (p.1 != k) = false := by simp [hpk]
      have hstep : dictInsert (p :: rest) k v = dictInsert rest k v := by
        simp [dictInsert, List.filter_cons, hpb]
      rw [hstep, ih]
      by_cases hq : q = k
      · simp [hq]
      · have hqp : ¬ q = p.1 := fun he => hq (he.trans hpk)
        have hqb : (q == p.1) = false := by simp [hqp]
        simp [hq, List.lookup, hqb]
    · have hpb : (p.1 != k) = true := by simp [hpk]
      have hstep : dictInsert (p :: rest) k v = p :: dictInsert rest k v := by
        simp [dictInsert, List.filter_cons, hpb]
      rw [hstep]
      by_cases hqp : q = p.1
      · have hq : ¬ q = k := fun h => hpk (hqp.symm.trans h)
        have hqb : (q == p.1) = true := by simp [hqp]
        simp [List.lookup, hqb, hq]
      · have hqb : (q == p.1) = false := by simp [hqp]
        simp [List.lookup, hqb, ih]

lemma question_info_of_go (qs : List Question) :
    ∀ (m : QuestionInfo) (q : Nat),
      ((qs.foldl (fun m x => dictInsert m x.id ⟨x.difficulty, x.is_mandatory⟩) m).lookup q).isSome =
        ((m.lookup q).isSome || qs.any (fun x => x.id == q)) := by
  induction qs with
  | nil => intro m q; simp
  | cons x rest ih =>
    intro m q
    rw [List.foldl_cons, ih, dictInsert_lookup]
    by_cases h : q = x.id
    · simp [h]
    · have hx : ¬ x.id = q := fun hh => h hh.symm
      have hb : (x.id == q) = false := by simp [hx]
      simp [h, hb]

/-- A question id resolves through the metadata dict iff some loaded question
row carries that id. -/
lemma question_info_of_isSome (qs : List Question) (q : Nat) :
    ((question_info_of qs).lookup q).isSome = qs.any (fun x => x.id == q) := by
  unfold question_info_of
  rw [question_info_of_go]
  simp [List.lookup]

lemma answers_loop_spec (question_info : QuestionInfo) (uid et : String) (clock : Nat) :
    ∀ (items : List UserAnswerItem) (next_id : Nat),
      (answers_loop question_info uid et clock next_id items).1.map answer_row_data =
          (items.filter (answer_resolved question_info)).map (item_row_data uid et) ∧
      (answers_loop question_info uid et clock next_id items).2.1.length =
          (items.filter (answer_resolved question_info)).length ∧
      (answers_loop question_info uid et clock next_id items).1.length =
          (items.filter (answer_resolved question_info)).length ∧
      (answers_loop question_info uid et clock next_id items).2.2.1 =
          (items.filter (answer_resolved question_info)).countP (fun a => a.status) ∧
      (answers_loop question_info uid et clock next_id items).2.2.2 =
          (items.filter (answer_resolved question_info)).countP (fun a => !a.status) := by
  intro items
  induction items with
  | nil => intro next_id; simp [answers_loop]
  | cons item rest ih =>
    intro next_id
    by_cases hr : (question_info.lookup item.question_id).isSome
    · have hres : answer_resolved question_info item = true := hr
      obtain ⟨ih1, ih2, ih3, ih4, ih5⟩ := ih (next_id + 1)
      cases hs : item.status <;>
        simp [answers_loop, hr, hres, List.filter_cons, hs, ih1, ih2, ih3, ih4, ih5,
          answer_row_data, item_row_data, List.countP_cons]
    · have hres : answer_resolved question_info item = false := by
        unfold answer_resolved
        exact Bool.eq_false_iff.mpr hr
      obtain ⟨ih1, ih2, ih3, ih4, ih5⟩ := ih next_id
      simp [answers_loop, hr, hres, List.filter_cons, ih1, ih2, ih3, ih4, ih5]

/-- Unresolved answers can be dropped from the list without changing the
session score. -/
lemma compute_session_score_filter (question_info : QuestionInfo)
    (answers : List UserAnswerItem) :
    compute_session_score question_info answers =
      compute_session_score question_info
        (answers.filter (answer_resolved question_info)) := by
  have hff : (answers.filter (answer_resolved question_info)).filter
      (answer_resolved question_info) = answers.filter (answer_resolved question_info) := by
    rw [List.filter_filter]
    apply List.filter_congr
    intro a _
    cases h : answer_resolved question_info a <;> simp [h]
  have hws : weighted_sum_of question_info
        (answers.filter (answer_resolved question_info)) =
      weighted_sum_of question_info answers := by
    unfold weighted_sum_of
    rw [List.filter_filter]
    have heq : answers.filter
          (fun a => answer_resolved question_info a && a.status &&
            answer_resolved question_info a) =
        answers.filter (fun a => answer_resolved question_info a && a.status) := by
      apply List.filter_congr
      intro a _
      cases h : answer_resolved question_info a <;> cases hs : a.status <;> simp [h, hs]
    rw [heq]
  have htw : total_weight_of question_info
        (answers.filter (answer_resolved question_info)) =
      total_weight_of question_info answers := by
    unfold total_weight_of
    rw [hff]
  rw [compute_session_score_eq, compute_session_score_eq, hff, hws, htw]
  cases hae : answers.isEmpty with
  | true =>
    have : answers = [] := by
      cases answers with
      | nil => rfl
      | cons a l => simp at hae
    subst this
    simp
  | false =>
    cases haf : (answers.filter (answer_resolved question_info)).isEmpty with
    | false => simp [hae, haf]
    | true =>
      have hnil : answers.filter (answer_resolved question_info) = [] := by
        cases hc : answers.filter (answer_resolved question_info) with
        | nil => rfl
        | cons a l => rw [hc] at haf; simp at haf
      have htz : total_weight_of question_info answers = 0 := by
        unfold total_weight_of
        rw [hnil]
        rfl
      simp [hae, haf, hnil, htz, round2]

/-- C2: `save_user_answers` persists exactly one `UserAnswer` row per item
whose question id references an existing question, silently drops every other
item, and stores a `UserStat` whose score is computed over the accepted items
only; in particular a batch of one unknown and two known ids persists exactly
two rows and scores those two. -/
theorem save_user_answers_accepted_only :
    (∀ (db : DB) (data : UserAnswerCreate),
      (save_user_answers db data).db.user_answers.map answer_row_data =
          db.user_answers.map answer_row_data ++
            (data.questions.filter (question_known db)).map
              (item_row_data data.user_id data.exam_type) ∧
      (save_user_answers db data).user_answer_ids.length =
          (data.questions.filter (question_known db)).length ∧
      (save_user_answers db data).new_stat.total_score =
          compute_session_score (question_info_of (queried_questions db data))
            (data.questions.filter (question_known db))) ∧
    ((save_user_answers exampleDb exampleBatch).db.user_answers.length = 2 ∧
     (save_user_answers exampleDb exampleBatch).new_stat.total_score =
        compute_session_score (question_info_of exampleDb.questions)
          [⟨1, 0, true⟩, ⟨2, 0, false⟩]) := by
  have hgen : ∀ (db : DB) (data : UserAnswerCreate),
      (save_user_answers db data).db.user_answers.map answer_row_data =
          db.user_answers.map answer_row_data ++
            (data.questions.filter (question_known db)).map
              (item_row_data data.user_id data.exam_type) ∧
      (save_user_answers db data).user_answer_ids.length =
          (data.questions.filter (question_known db)).length ∧
      (save_user_answers db data).new_stat.total_score =
          compute_session_score (question_info_of (queried_questions db data))
            (data.questions.filter (question_known db)) := by
    intro db data
    have hfilter : data.questions.filter
          (answer_resolved (question_info_of (queried_questions db data))) =
        data.questions.filter (question_known db) := by
      apply List.filter_congr
      intro it hit
      unfold answer_resolved question_known
      rw [question_info_of_isSome]
      unfold queried_questions
      rw [List.any_filter]
      have hmem : it.question_id ∈ data.questions.map (fun i => i.question_id) :=
        List.mem_map.mpr ⟨it, hit, rfl⟩
      have hb : ∀ b₁ b₂ : Bool, (b₁ = true ↔ b₂ = true) → b₁ = b₂ := by decide
      apply hb
      simp only [List.any_eq_true, Bool.and_eq_true, beq_iff_eq]
      constructor
      · rintro ⟨q, hq, _, hid⟩
        exact ⟨q, hq, hid⟩
      · rintro ⟨q, hq, hid⟩
        refine ⟨q, hq, ?_, hid⟩
        rw [hid]
        simpa using hmem
    obtain ⟨l1, l2, l3, l4, l5⟩ :=
      answers_loop_spec (question_info_of (queried_questions db data))
        data.user_id data.exam_type db.clock data.questions db.next_answer_id
    refine ⟨?_, ?_, ?_⟩
    · show (db.user_answers ++ _).map answer_row_data = _
      rw [List.map_append, l1, hfilter]
    · show (answers_loop _ _ _ _ _ _).2.1.length = _
      rw [l2, hfilter]
    · show calculate_score _ _ _ _ = _
      rw [l4, l5]
      have : calculate_score
          ((data.questions.filter
            (answer_resolved (question_info_of (queried_questions db data)))).countP
              (fun a => a.status))
          ((data.questions.filter
            (answer_resolved (question_info_of (queried_questions db data)))).countP
              (fun a => !a.status))
          (question_info_of (queried_questions db data)) data.questions =
          compute_session_score (question_info_of (queried_questions db data))
            data.questions := rfl
      rw [this, compute_session_score_filter, hfilter]
  refine ⟨hgen, ?_, ?_⟩
  · obtain ⟨h1, _, _⟩ := hgen exampleDb exampleBatch
    have hlen := congrArg List.length h1
    rw [List.length_map, List.length_append, List.length_map, List.length_map] at hlen
    rw [hlen]
    decide
  · obtain ⟨_, _, h3⟩ := hgen exampleDb exampleBatch
    rw [h3]
    have hq : queried_questions exampleDb exampleBatch = exampleDb.questions := by decide
    have hf : exampleBatch.questions.filter (question_known exampleDb) =
        [⟨1, 0, true⟩, ⟨2, 0, false⟩] := by decide
    rw [hq, hf]

/-- C10: when a batch already mentions a question id, appending one more item
for that same existing question id inserts one more `UserAnswer` row (no
deduplication), adds that item's full weight to the score's denominator
(`total_weight`), and, when the item is correct, adds it to the numerator
(`weighted_score`) as well. -/
theorem duplicate_answers_count_separately
    (db : DB) (data : UserAnswerCreate) (item : UserAnswerItem) (inf : QInfo)
    (hdup : ∃ b ∈ data.questions, b.question_id = item.question_id)
    (hres : (question_info_of (queried_questions db data)).lookup item.question_id =
      some inf) :
    (save_user_answers db
        { data with questions := data.questions ++ [item] }).user_answer_ids.length =
      (save_user_answers db data).user_answer_ids.length + 1 ∧
    total_weight_of (question_info_of (queried_questions db data))
        (data.questions ++ [item]) =
      total_weight_of (question_info_of (queried_questions db data)) data.questions +
        answer_weight inf ∧
    weighted_sum_of (question_info_of (queried_questions db data))
        (data.questions ++ [item]) =
      weighted_sum_of (question_info_of (queried_questions db data)) data.questions +
        (if item.status then answer_weight inf else 0) := by
  have hidm : item.question_id ∈ data.questions.map (fun i => i.question_id) := by
    obtain ⟨b, hb, hbq⟩ := hdup
    exact List.mem_map.mpr ⟨b, hb, hbq⟩
  have hbool : ∀ b₁ b₂ : Bool, (b₁ = true ↔ b₂ = true) → b₁ = b₂ := by decide
  have hqq : queried_questions db { data with questions := data.questions ++ [item] } =
      queried_questions db data := by
    unfold queried_questions
    apply List.filter_congr
    intro x _
    simp only [List.map_append, List.map_cons, List.map_nil]
    apply hbool
    simp only [List.contains, List.elem_iff, List.mem_append, List.mem_singleton]
    constructor
    · rintro (hm | hm)
      · exact hm
      · rw [hm]
        exact hidm
    · intro hm
      exact Or.inl hm
  have hresolved : answer_resolved (question_info_of (queried_questions db data))
      item = true := by
    simp [answer_resolved, hres]
  refine ⟨?_, ?_, ?_⟩
  · show (answers_loop
        (question_info_of (queried_questions db
          { data with questions := data.questions ++ [item] }))
        data.user_id data.exam_type db.clock db.next_answer_id
        (data.questions ++ [item])).2.1.length =
      (answers_loop (question_info_of (queried_questions db data))
        data.user_id data.exam_type db.clock db.next_answer_id
        data.questions).2.1.length + 1
    rw [hqq]
    obtain ⟨_, l2a, _, _, _⟩ :=
      answers_loop_spec (question_info_of (queried_questions db data))
        data.user_id data.exam_type db.clock (data.questions ++ [item])
        db.next_answer_id
    obtain ⟨_, l2b, _, _, _⟩ :=
      answers_loop_spec (question_info_of (queried_questions db data))
        data.user_id data.exam_type db.clock data.questions db.next_answer_id
    rw [l2a, l2b, List.filter_append]
    simp [List.filter_cons, hresolved]
  · unfold total_weight_of
    rw [List.filter_append]
    simp [List.filter_cons, hresolved, weight_of, hres]
  · unfold weighted_sum_of
    rw [List.filter_append]
    cases hs : item.status
    · simp [List.filter_cons, hresolved, hs]
    · simp [List.filter_cons, hresolved, hs, weight_of, hres]

/-- Witness for `duplicate_answers_count_separately`: a batch that already
contains question id 1 gains a second item for question 1. -/
theorem duplicate_answers_count_separately_witness :
    (∃ b ∈ exampleBatch.questions, b.question_id =
      (⟨1, 3, true⟩ : UserAnswerItem).question_id) ∧
    ((question_info_of (queried_questions exampleDb exampleBatch)).lookup
      (⟨1, 3, true⟩ : UserAnswerItem).question_id = some ⟨"MID", false⟩) ∧
    ((save_user_answers exampleDb
        { exampleBatch with
          questions := exampleBatch.questions ++ [⟨1, 3, true⟩] }).user_answer_ids.length =
      (save_user_answers exampleDb exampleBatch).user_answer_ids.length + 1 ∧
    total_weight_of (question_info_of (queried_questions exampleDb exampleBatch))
        (exampleBatch.questions ++ [⟨1, 3, true⟩]) =
      total_weight_of (question_info_of (queried_questions exampleDb exampleBatch))
        exampleBatch.questions + answer_weight ⟨"MID", false⟩ ∧
    weighted_sum_of (question_info_of (queried_questions exampleDb exampleBatch))
        (exampleBatch.questions ++ [⟨1, 3, true⟩]) =
      weighted_sum_of (question_info_of (queried_questions exampleDb exampleBatch))
        exampleBatch.questions +
        (if (⟨1, 3, true⟩ : UserAnswerItem).status then
          answer_weight ⟨"MID", false⟩ else 0)) :=
  ⟨by decide, by decide,
   duplicate_answers_count_separately exampleDb exampleBatch ⟨1, 3, true⟩
     ⟨"MID", false⟩ (by decide) (by decide)⟩

/-! ### Properties of the `ORDER BY` model -/

lemma insertOrd_perm {α : Type} (le : α → α → Bool) (x : α) (l : List α) :
    List.Perm (insertOrd le x l) (x :: l) := by
  induction l with
  | nil => exact List.Perm.refl _
  | cons y ys ih =>
    unfold insertOrd
    by_cases h : le x y = true
    · rw [if_pos h]
    · rw [if_neg h]
      exact (ih.cons y).trans (List.Perm.swap x y ys)

lemma sortOrd_perm {α : Type} (le : α → α → Bool) (l : List α) :
    List.Perm (sortOrd le l) l := by
  induction l with
  | nil => exact List.Perm.refl _
  | cons x xs ih =>
    unfold sortOrd
    exact (insertOrd_perm le x (sortOrd le xs)).trans (ih.cons x)

lemma insertOrd_pairwise {α : Type} (le : α → α → Bool)
    (htot : ∀ a b, le a b = true ∨ le b a = true)
    (htrans : ∀ a b c, le a b = true → le b c = true → le a c = true)
    (x : α) (l : List α) (hl : l.Pairwise (fun a b => le a b = true)) :
    (insertOrd le x l).Pairwise (fun a b => le a b = true) := by
  induction l with
  | nil => simp [insertOrd]
  | cons y ys ih =>
    rw [List.pairwise_cons] at hl
    obtain ⟨hy, hys⟩ := hl
    unfold insertOrd
    by_cases h : le x y = true
    · rw [if_pos h]
      refine List.pairwise_cons.mpr ⟨?_, List.pairwise_cons.mpr ⟨hy, hys⟩⟩
      intro z hz
      rcases List.mem_cons.mp hz with rfl | hz
      · exact h
      · exact htrans x y z h (hy z hz)
    · rw [if_neg h]
      refine List.pairwise_cons.mpr ⟨?_, ih hys⟩
      intro z hz
      have hz' : z ∈ x :: ys := (insertOrd_perm le x ys).mem_iff.mp hz
      rcases List.mem_cons.mp hz' with hzx | hz'
      · rw [hzx]
        rcases htot x y with h1 | h1
        · exact absurd h1 h
        · exact h1
      · exact hy z hz'

lemma sortOrd_pairwise {α : Type} (le : α → α → Bool)
    (htot : ∀ a b, le a b = true ∨ le b a = true)
    (htrans : ∀ a b c, le a b = true → le b c = true → le a c = true)
    (l : List α) : (sortOrd le l).Pairwise (fun a b => le a b = true) := by
  induction l with
  | nil => simp [sortOrd]
  | cons x xs ih =>
    unfold sortOrd
    exact insertOrd_pairwise le htot htrans x _ ih

lemma sortDescNat_perm {α : Type} (key : α → Nat) (l : List α) :
    List.Perm (sortDescNat key l) l := sortOrd_perm _ l

lemma sortAscNat_perm {α : Type} (key : α → Nat) (l : List α) :
    List.Perm (sortAscNat key l) l := sortOrd_perm _ l

lemma sortDescQ_perm {α : Type} (key : α → ℚ) (l : List α) :
    List.Perm (sortDescQ key l) l := sortOrd_perm _ l

lemma sortDescNat_pairwise {α : Type} (key : α → Nat) (l : List α) :
    (sortDescNat key l).Pairwise (fun a b => key b ≤ key a) := by
  have h := sortOrd_pairwise (fun x y => decide (key y ≤ key x))
    (fun a b => by
      rcases le_total (key b) (key a) with h | h
      · exact Or.inl (decide_eq_true h)
      · exact Or.inr (decide_eq_true h))
    (fun a b c hab hbc =>
      decide_eq_true (le_trans (of_decide_eq_true hbc) (of_decide_eq_true hab)))
    l
  exact h.imp (fun hab => of_decide_eq_true hab)

lemma sortAscNat_pairwise {α : Type} (key : α → Nat) (l : List α) :
    (sortAscNat key l).Pairwise (fun a b => key a ≤ key b) := by
  have h := sortOrd_pairwise (fun x y => decide (key x ≤ key y))
    (fun a b => by
      rcases le_total (key a) (key b) with h | h
      · exact Or.inl (decide_eq_true h)
      · exact Or.inr (decide_eq_true h))
    (fun a b c hab hbc =>
      decide_eq_true (le_trans (of_decide_eq_true hab) (of_decide_eq_true hbc)))
    l
  exact h.imp (fun hab => of_decide_eq_true hab)

lemma sortDescQ_pairwise {α : Type} (key : α → ℚ) (l : List α) :
    (sortDescQ key l).Pairwise (fun a b => key b ≤ key a) := by
  have h := sortOrd_pairwise (fun x y => decide (key y ≤ key x))
    (fun a b => by
      rcases le_total (key b) (key a) with h | h
      · exact Or.inl (decide_eq_true h)
      · exact Or.inr (decide_eq_true h))
    (fun a b c hab hbc =>
      decide_eq_true (le_trans (of_decide_eq_true hbc) (of_decide_eq_true hab)))
    l
  exact h.imp (fun hab => of_decide_eq_true hab)

/-! ### C4: the weak-question two-phase ranking -/

/-- C4: `get_weak_question_ids` follows the documented two-phase algorithm:
the shortlist holds at most `2*limit` group-counted incorrect question ids in
count-descending order; when it is empty the result is the exam type's
HIGH-difficulty questions ordered by id ascending and truncated to `limit`;
otherwise the shortlisted candidates are re-ranked by
`priority = difficulty_rank * mandatory_rank` descending and the first `limit`
ids are returned. -/
theorem get_weak_questions_two_phase (db : DB) (u e : String) (limit : Nat) :
    ((incorrect_counts db u e limit).Pairwise (fun p q => q.2 ≤ p.2) ∧
     (incorrect_counts db u e limit).length ≤ 2 * limit ∧
     ∀ p ∈ incorrect_counts db u e limit,
       p ∈ groupCounts (db.user_answers.filter
         (fun a => a.user_id == u && a.exam_type == e && a.status == false))) ∧
    (incorrect_counts db u e limit = [] →
      get_weak_question_ids db u e limit =
        ((sortAscNat (fun q => q.id)
          (db.questions.filter
            (fun q => q.exam_type == e && q.difficulty == "HIGH"))).take limit).map
          (fun q => q.id) ∧
      (get_weak_question_ids db u e limit).length ≤ limit ∧
      (get_weak_question_ids db u e limit).Pairwise (fun i j => i ≤ j) ∧
      ∀ i ∈ get_weak_question_ids db u e limit, ∃ qr ∈ db.questions,
        qr.id = i ∧ qr.difficulty = "HIGH" ∧ qr.exam_type = e) ∧
    (incorrect_counts db u e limit ≠ [] →
      get_weak_question_ids db u e limit =
        ((sortDescNat (fun p : Nat × Nat => p.2)
          ((db.questions.filter
            (fun q => ((incorrect_counts db u e limit).map (fun p => p.1)).contains
              q.id)).map (fun q => (q.id, priority_of q)))).take limit).map
          (fun p => p.1) ∧
      (get_weak_question_ids db u e limit).length ≤ limit ∧
      (sortDescNat (fun p : Nat × Nat => p.2)
          ((db.questions.filter
            (fun q => ((incorrect_counts db u e limit).map (fun p => p.1)).contains
              q.id)).map (fun q => (q.id, priority_of q)))).Pairwise
        (fun p q => q.2 ≤ p.2) ∧
      ∀ i ∈ get_weak_question_ids db u e limit,
        ((incorrect_counts db u e limit).map (fun p => p.1)).contains i = true) := by
  refine ⟨⟨?_, ?_, ?_⟩, ?_, ?_⟩
  · exact (sortDescNat_pairwise (fun p : Nat × Nat => p.2) _).sublist
      (List.take_sublist _ _)
  · calc (incorrect_counts db u e limit).length ≤ limit * 2 := by
          unfold incorrect_counts
          exact List.length_take_le _ _
      _ = 2 * limit := Nat.mul_comm _ _
  · intro p hp
    have hp' : p ∈ sortDescNat (fun p : Nat × Nat => p.2)
        (groupCounts (db.user_answers.filter
          (fun a => a.user_id == u && a.exam_type == e && a.status == false))) :=
      (List.take_sublist _ _).subset hp
    exact (sortDescNat_perm _ _).mem_iff.mp hp'
  · intro h
    have hgw : get_weak_question_ids db u e limit =
        ((sortAscNat (fun q => q.id)
          (db.questions.filter
            (fun q => q.exam_type == e && q.difficulty == "HIGH"))).take limit).map
          (fun q => q.id) := by
      unfold get_weak_question_ids
      rw [h]
      rfl
    refine ⟨hgw, ?_, ?_, ?_⟩
    · rw [hgw, List.length_map]
      exact List.length_take_le _ _
    · rw [hgw]
      refine List.pairwise_map.mpr ?_
      exact (sortAscNat_pairwise (fun q : Question => q.id) _).sublist
        (List.take_sublist _ _)
    · intro i hi
      rw [hgw] at hi
      rcases List.mem_map.mp hi with ⟨qr, hqr, rfl⟩
      have hqr' : qr ∈ sortAscNat (fun q : Question => q.id)
          (db.questions.filter
            (fun q => q.exam_type == e && q.difficulty == "HIGH")) :=
        (List.take_sublist _ _).subset hqr
      have hqr'' := (sortAscNat_perm _ _).mem_iff.mp hqr'
      rcases List.mem_filter.mp hqr'' with ⟨hmem, hpred⟩
      simp only [Bool.and_eq_true, beq_iff_eq] at hpred
      exact ⟨qr, hmem, rfl, hpred.2, hpred.1⟩
  · intro h
    have hids : ((incorrect_counts db u e limit).map
        (fun p : Nat × Nat => p.1)).isEmpty = false := by
      cases hic : incorrect_counts db u e limit with
      | nil => exact absurd hic h
      | cons a l => rfl
    have hgw : get_weak_question_ids db u e limit =
        ((sortDescNat (fun p : Nat × Nat => p.2)
          ((db.questions.filter
            (fun q => ((incorrect_counts db u e limit).map (fun p => p.1)).contains
              q.id)).map (fun q => (q.id, priority_of q)))).take limit).map
          (fun p => p.1) := by
      unfold get_weak_question_ids
      simp only [hids, Bool.false_eq_true, if_false]
    refine ⟨hgw, ?_, ?_, ?_⟩
    · rw [hgw, List.length_map]
      exact List.length_take_le _ _
    · exact sortDescNat_pairwise _ _
    · intro i hi
      rw [hgw] at hi
      rcases List.mem_map.mp hi with ⟨p, hp, rfl⟩
      have hp' := (List.take_sublist _ _).subset hp
      have hp'' := (sortDescNat_perm (fun p : Nat × Nat => p.2) _).mem_iff.mp hp'
      rcases List.mem_map.mp hp'' with ⟨qr, hqr, rfl⟩
      rcases List.mem_filter.mp hqr with ⟨_, hpred⟩
      exact hpred

/-- Witness for `get_weak_questions_two_phase`: the fallback branch fires on a
store with no incorrect history, and the re-rank branch fires on a store with
one incorrect answer. -/
theorem get_weak_questions_two_phase_witness :
    (incorrect_counts exampleDb "u" "E" 1 = [] ∧
     get_weak_question_ids exampleDb "u" "E" 1 =
       ((sortAscNat (fun q => q.id)
         (exampleDb.questions.filter
           (fun q => q.exam_type == "E" && q.difficulty == "HIGH"))).take 1).map
         (fun q => q.id)) ∧
    (incorrect_counts exampleDb2 "u" "E" 1 ≠ [] ∧
     ∀ i ∈ get_weak_question_ids exampleDb2 "u" "E" 1,
       ((incorrect_counts exampleDb2 "u" "E" 1).map (fun p => p.1)).contains i = true) :=
  ⟨⟨by decide, ((get_weak_questions_two_phase exampleDb "u" "E" 1).2.1 (by decide)).1⟩,
   ⟨by decide,
    ((get_weak_questions_two_phase exampleDb2 "u" "E" 1).2.2 (by decide)).2.2.2⟩⟩

/-! ### C5: recent-answer exclusion in the frequent-question query -/

/-- C5: with exclusion enabled, `get_frequent_question_ids` never returns a
question id among the caller's 20 most recent answers' question ids for the
exam type, and the returned ids are the question ids of the exam type's
`FrequentQuestion` rows after that exclusion, ordered by `final_score`
descending and truncated to `limit`. -/
theorem get_frequent_questions_excludes_recent (db : DB) (u e : String)
    (limit : Nat) :
    (∀ i ∈ get_frequent_question_ids db u e limit true,
       i ∉ recent_question_ids db u e) ∧
    get_frequent_question_ids db u e limit true =
      ((sortDescQ (fun fq => fq.final_score)
        ((db.frequent_questions.filter (fun fq => fq.exam_type == e)).filter
          (fun fq => !(recent_question_ids db u e).contains fq.question_id))).take
        limit).map (fun fq => fq.question_id) ∧
    (get_frequent_question_ids db u e limit true).length ≤ limit ∧
    (∀ i ∈ get_frequent_question_ids db u e limit true,
       ∃ fq ∈ db.frequent_questions, fq.exam_type = e ∧ fq.question_id = i) ∧
    (sortDescQ (fun fq => fq.final_score)
        ((db.frequent_questions.filter (fun fq => fq.exam_type == e)).filter
          (fun fq => !(recent_question_ids db u e).contains fq.question_id))).Pairwise
      (fun a b => b.final_score ≤ a.final_score) := by
  have hsplit : get_frequent_question_ids db u e limit true =
      ((sortDescQ (fun fq => fq.final_score)
        ((db.frequent_questions.filter (fun fq => fq.exam_type == e)).filter
          (fun fq => !(recent_question_ids db u e).contains fq.question_id))).take
        limit).map (fun fq => fq.question_id) := by
    unfold get_frequent_question_ids
    cases hrec : recent_question_ids db u e with
    | nil =>
      have hfe : (db.frequent_questions.filter (fun fq => fq.exam_type == e)).filter
          (fun fq => !(([] : List Nat).contains fq.question_id)) =
          db.frequent_questions.filter (fun fq => fq.exam_type == e) :=
        List.filter_eq_self.mpr (fun a _ => rfl)
      simp only [if_true, hrec, List.isEmpty_nil, Bool.not_true, Bool.and_false,
        Bool.false_eq_true, if_false, hfe]
    | cons a l =>
      simp only [if_true, hrec]
      simp
  refine ⟨?_, hsplit, ?_, ?_, ?_⟩
  · intro i hi hmem
    rw [hsplit] at hi
    rcases List.mem_map.mp hi with ⟨fq, hfq, rfl⟩
    have h1 := (List.take_sublist _ _).subset hfq
    have h2 := (sortDescQ_perm (fun fq : FrequentQuestionRow => fq.final_score) _).mem_iff.mp h1
    rcases List.mem_filter.mp h2 with ⟨_, hpred⟩
    have hcon : (recent_question_ids db u e).contains fq.question_id = true := by
      simpa [List.contains, List.elem_iff] using hmem
    rw [hcon] at hpred
    exact absurd hpred (by simp)
  · rw [hsplit, List.length_map]
    exact List.length_take_le _ _
  · intro i hi
    rw [hsplit] at hi
    rcases List.mem_map.mp hi with ⟨fq, hfq, rfl⟩
    have h1 := (List.take_sublist _ _).subset hfq
    have h2 := (sortDescQ_perm (fun fq : FrequentQuestionRow => fq.final_score) _).mem_iff.mp h1
    rcases List.mem_filter.mp h2 with ⟨h3, _⟩
    rcases List.mem_filter.mp h3 with ⟨hmem, hpred⟩
    exact ⟨fq, hmem, by simpa using hpred, rfl⟩
  · exact sortDescQ_pairwise _ _

/-! ### C7: upsert round trip -/

lemma filter_updateFirst {α : Type} (p : α → Bool) (f : α → α)
    (hp : ∀ a, p (f a) = p a) (l : List α) :
    (updateFirst p f l).filter p = mapHead f (l.filter p) := by
  induction l with
  | nil => rfl
  | cons x xs ih =>
    cases px : p x with
    | true =>
      rw [updateFirst, if_pos px]
      have hfx : p (f x) = true := by rw [hp x]; exact px
      rw [List.filter_cons, if_pos hfx, List.filter_cons, if_pos px]
      rfl
    | false =>
      rw [updateFirst, if_neg (by simp [px]), List.filter_cons, if_neg (by simp [px]),
        List.filter_cons, if_neg (by simp [px])]
      exact ih

lemma find?_isSome_iff_filter_ne_nil {α : Type} (p : α → Bool) (l : List α) :
    (l.find? p).isSome = true ↔ l.filter p ≠ [] := by
  rw [List.find?_isSome]
  constructor
  · rintro ⟨x, hx, hpx⟩ hnil
    exact absurd hpx ((List.filter_eq_nil_iff.mp hnil) x hx)
  · intro hne
    by_contra hno
    push_neg at hno
    refine hne (List.filter_eq_nil_iff.mpr ?_)
    intro a ha hpa
    exact hno a ha hpa

/-- `create_frequent_question` when the question exists and a row for the
pair already exists: the first matching row's score is overwritten. -/
lemma create_frequent_question_update (db : DB) (c : FrequentQuestionCreate)
    (hq : db.questions.any (fun x => x.id == c.question_id) = true)
    (hfind : (db.frequent_questions.find?
      (fun r => r.question_id == c.question_id &&
        r.exam_type == c.exam_type)).isSome = true) :
    create_frequent_question db c = .ok { db with frequent_questions :=
      (updateFirst
        (fun r => r.question_id == c.question_id && r.exam_type == c.exam_type)
        (fun r => { r with final_score := c.final_score })
        db.frequent_questions) } := by
  unfold create_frequent_question
  rw [if_pos hq, if_pos hfind]

/-- `create_frequent_question` when the question exists and no row for the
pair exists yet: a new row is appended. -/
lemma create_frequent_question_insert (db : DB) (c : FrequentQuestionCreate)
    (hq : db.questions.any (fun x => x.id == c.question_id) = true)
    (hfind : (db.frequent_questions.find?
      (fun r => r.question_id == c.question_id &&
        r.exam_type == c.exam_type)).isSome = false) :
    create_frequent_question db c = .ok { db with
      frequent_questions := db.frequent_questions ++
        [⟨db.next_fq_id, c.question_id, c.final_score, c.exam_type, db.clock⟩],
      next_fq_id := db.next_fq_id + 1,
      clock := db.clock + 1 } := by
  unfold create_frequent_question
  rw [if_pos hq, if_neg (by rw [hfind]; simp)]

/-- C7: upserting a `FrequentQuestion` for an existing question's
`(question_id, exam_type)` pair twice with scores `s1` then `s2` succeeds
twice and leaves exactly one row for that pair, carrying `s2` (the latest
score); the store is assumed to satisfy the pair-uniqueness constraint. -/
theorem frequent_question_upsert_round_trip (db : DB) (q : Nat) (e : String)
    (s1 s2 : ℚ)
    (hq : db.questions.any (fun x => x.id == q) = true)
    (huniq : (db.frequent_questions.filter
      (fun r => r.question_id == q && r.exam_type == e)).length ≤ 1) :
    ∃ db1 db2 : DB,
      create_frequent_question db ⟨q, s1, e⟩ = .ok db1 ∧
      create_frequent_question db1 ⟨q, s2, e⟩ = .ok db2 ∧
      (db2.frequent_questions.filter
        (fun r => r.question_id == q && r.exam_type == e)).length = 1 ∧
      ∀ r ∈ db2.frequent_questions.filter
        (fun r => r.question_id == q && r.exam_type == e), r.final_score = s2 := by
  cases hfind : (db.frequent_questions.find?
      (fun r => r.question_id == q && r.exam_type == e)).isSome with
  | true =>
    -- the pair already exists: both upserts take the update path
    have hne : db.frequent_questions.filter
        (fun r => r.question_id == q && r.exam_type == e) ≠ [] :=
      (find?_isSome_iff_filter_ne_nil _ db.frequent_questions).mp hfind
    obtain ⟨r0, hr0⟩ : ∃ r0, db.frequent_questions.filter
        (fun r => r.question_id == q && r.exam_type == e) = [r0] := by
      cases hc : db.frequent_questions.filter
          (fun r => r.question_id == q && r.exam_type == e) with
      | nil => exact absurd hc hne
      | cons a t =>
        cases t with
        | nil => exact ⟨a, rfl⟩
        | cons b t2 =>
          rw [hc] at huniq
          simp at huniq
    refine ⟨{ db with frequent_questions :=
        (updateFirst (fun r => r.question_id == q && r.exam_type == e)
          (fun r => { r with final_score := s1 }) db.frequent_questions) },
      { db with frequent_questions :=
        (updateFirst (fun r => r.question_id == q && r.exam_type == e)
          (fun r => { r with final_score := s2 })
          (updateFirst (fun r => r.question_id == q && r.exam_type == e)
            (fun r => { r with final_score := s1 }) db.frequent_questions)) },
      ?_, ?_, ?_, ?_⟩
    · exact create_frequent_question_update db ⟨q, s1, e⟩ hq hfind
    · refine create_frequent_question_update _ ⟨q, s2, e⟩ hq ?_
      show ((updateFirst (fun r => r.question_id == q && r.exam_type == e)
          (fun r => { r with final_score := s1 }) db.frequent_questions).find?
          (fun r => r.question_id == q && r.exam_type == e)).isSome = true
      rw [find?_isSome_iff_filter_ne_nil,
        filter_updateFirst (fun (r : FrequentQuestionRow) => r.question_id == q && r.exam_type == e) (fun (r : FrequentQuestionRow) => { r with final_score := s1 }) (fun r => rfl), hr0]
      simp [mapHead]
    · show ((updateFirst (fun r => r.question_id == q && r.exam_type == e)
          (fun r => { r with final_score := s2 })
          (updateFirst (fun r => r.question_id == q && r.exam_type == e)
            (fun r => { r with final_score := s1 }) db.frequent_questions)).filter
          (fun r => r.question_id == q && r.exam_type == e)).length = 1
      rw [filter_updateFirst (fun (r : FrequentQuestionRow) => r.question_id == q && r.exam_type == e) (fun (r : FrequentQuestionRow) => { r with final_score := s2 }) (fun r => rfl),
        filter_updateFirst (fun (r : FrequentQuestionRow) => r.question_id == q && r.exam_type == e) (fun (r : FrequentQuestionRow) => { r with final_score := s1 }) (fun r => rfl), hr0]
      rfl
    · intro r hr
      rw [filter_updateFirst (fun (r : FrequentQuestionRow) => r.question_id == q && r.exam_type == e) (fun (r : FrequentQuestionRow) => { r with final_score := s2 }) (fun x => rfl),
        filter_updateFirst (fun (r : FrequentQuestionRow) => r.question_id == q && r.exam_type == e) (fun (r : FrequentQuestionRow) => { r with final_score := s1 }) (fun x => rfl), hr0] at hr
      simp [mapHead] at hr
      rw [hr]
  | false =>
    -- no row yet: the first upsert appends, the second updates it
    have hpnew : (fun (r : FrequentQuestionRow) =>
        r.question_id == q && r.exam_type == e)
        ⟨db.next_fq_id, q, s1, e, db.clock⟩ = true := by simp
    have hfq1 : (db.frequent_questions ++
        [(⟨db.next_fq_id, q, s1, e, db.clock⟩ : FrequentQuestionRow)]).filter
        (fun r => r.question_id == q && r.exam_type == e) =
        [⟨db.next_fq_id, q, s1, e, db.clock⟩] := by
      have hnil : db.frequent_questions.filter
          (fun r => r.question_id == q && r.exam_type == e) = [] := by
        by_contra hc
        have h2 := (find?_isSome_iff_filter_ne_nil
          (fun r => r.question_id == q && r.exam_type == e)
          db.frequent_questions).mpr hc
        rw [hfind] at h2
        exact absurd h2 (by simp)
      rw [List.filter_append, hnil, List.filter_cons, if_pos hpnew]
      rfl
    refine ⟨{ db with
        frequent_questions := db.frequent_questions ++
          [⟨db.next_fq_id, q, s1, e, db.clock⟩],
        next_fq_id := db.next_fq_id + 1,
        clock := db.clock + 1 },
      { db with
        frequent_questions :=
          (updateFirst (fun r => r.question_id == q && r.exam_type == e)
            (fun r => { r with final_score := s2 })
            (db.frequent_questions ++ [⟨db.next_fq_id, q, s1, e, db.clock⟩])),
        next_fq_id := db.next_fq_id + 1,
        clock := db.clock + 1 },
      ?_, ?_, ?_, ?_⟩
    · exact create_frequent_question_insert db ⟨q, s1, e⟩ hq hfind
    · refine create_frequent_question_update _ ⟨q, s2, e⟩ hq ?_
      show ((db.frequent_questions ++
          [(⟨db.next_fq_id, q, s1, e, db.clock⟩ : FrequentQuestionRow)]).find?
          (fun r => r.question_id == q && r.exam_type == e)).isSome = true
      rw [find?_isSome_iff_filter_ne_nil, hfq1]
      simp
    · show ((updateFirst (fun r => r.question_id == q && r.exam_type == e)
          (fun r => { r with final_score := s2 })
          (db.frequent_questions ++
            [⟨db.next_fq_id, q, s1, e, db.clock⟩])).filter
          (fun r => r.question_id == q && r.exam_type == e)).length = 1
      rw [filter_updateFirst (fun (r : FrequentQuestionRow) => r.question_id == q && r.exam_type == e) (fun (r : FrequentQuestionRow) => { r with final_score := s2 }) (fun r => rfl), hfq1]
      rfl
    · intro r hr
      rw [filter_updateFirst (fun (r : FrequentQuestionRow) => r.question_id == q && r.exam_type == e) (fun (r : FrequentQuestionRow) => { r with final_score := s2 }) (fun x => rfl), hfq1] at hr
      simp [mapHead] at hr
      rw [hr]

/-- Witness for `frequent_question_upsert_round_trip`: question 1 of the
example store, upserted with scores 0 then 1. -/
theorem frequent_question_upsert_round_trip_witness :
    exampleDb.questions.any (fun x => x.id == 1) = true ∧
    (exampleDb.frequent_questions.filter
      (fun r => r.question_id == 1 && r.exam_type == "E")).length ≤ 1 ∧
    (∃ db1 db2 : DB,
      create_frequent_question exampleDb ⟨1, 0, "E"⟩ = .ok db1 ∧
      create_frequent_question db1 ⟨1, 1, "E"⟩ = .ok db2 ∧
      (db2.frequent_questions.filter
        (fun r => r.question_id == 1 && r.exam_type == "E")).length = 1 ∧
      ∀ r ∈ db2.frequent_questions.filter
        (fun r => r.question_id == 1 && r.exam_type == "E"),
        r.final_score = 1) :=
  ⟨by decide, by decide,
   frequent_question_upsert_round_trip exampleDb 1 "E" 0 1 (by decide) (by decide)⟩

/-! ### C8: token expiry always rejected -/

/-- C8: a token whose `exp` claim is strictly before the current time is
rejected with HTTP 401 (`Unauthenticated`) regardless of the key-id,
signature, audience and issuer outcomes; and whenever verification succeeds,
`exp` is at or after the current time. -/
theorem verify_token_expiry (keys keysRefreshed : List String) (now : Int)
    (tok : Token) (e : Int) (hexp : tok.payload.exp = some e) :
    (e < now → verify_token keys keysRefreshed now tok = .error 401) ∧
    (∀ p, verify_token keys keysRefreshed now tok = .ok p → now ≤ e) := by
  have herr : e < now → verify_token keys keysRefreshed now tok = .error 401 := by
    intro hlt
    unfold verify_token jose_decode
    cases hk : (!(keys.contains tok.kid) && !(keysRefreshed.contains tok.kid)) with
    | true => simp [hk]
    | false =>
      cases hs : tok.sig_valid <;> cases ha : tok.aud_ok <;> cases hi : tok.iss_ok <;>
        simp [hk, hs, ha, hi, hexp, hlt]
  refine ⟨herr, ?_⟩
  intro p hok
  by_contra hnow
  push_neg at hnow
  rw [herr hnow] at hok
  exact absurd hok (by simp)

/-- Witness for `verify_token_expiry`: a token with a valid signature,
audience, issuer and known key id, but `exp = 5` checked at time 10, is
rejected with 401. -/
theorem verify_token_expiry_witness :
    ((⟨"k", ⟨"u", some 5⟩, true, true, true⟩ : Token).payload.exp = some 5) ∧
    ((5 : Int) < 10) ∧
    verify_token ["k"] [] 10 ⟨"k", ⟨"u", some 5⟩, true, true, true⟩ = .error 401 :=
  ⟨by decide, by decide,
   (verify_token_expiry ["k"] [] 10 ⟨"k", ⟨"u", some 5⟩, true, true, true⟩ 5
     (by decide)).1 (by decide)⟩

/-! ### C3: transactional behaviour of the two multi-statement writes -/

/-- A failure injected anywhere before (or at) the final commit leaves the
committed store untouched. -/
lemma runTx_fail_committed :
    ∀ (steps : List (DB → DB)) (s : TxSession) (i k : Nat),
      k ≤ steps.length →
      (runTx s steps i (some (i + k))).1.committed = s.committed := by
  intro steps
  induction steps with
  | nil =>
    intro s i k hk
    have hk0 : k = 0 := Nat.le_zero.mp hk
    subst hk0
    unfold runTx
    simp
  | cons st rest ih =>
    intro s i k hk
    cases k with
    | zero =>
      unfold runTx
      simp
    | succ k' =>
      unfold runTx
      have hne : ¬ (some (i + (k' + 1)) = some i) := by simp
      rw [if_neg hne]
      have harr : i + (k' + 1) = (i + 1) + k' := by omega
      rw [harr]
      exact ih { s with current := st s.current } (i + 1) k'
        (Nat.succ_le_succ_iff.mp hk)

/-- A run with no failure applies every step to the in-transaction view and
commits the result. -/
lemma runTx_none :
    ∀ (steps : List (DB → DB)) (s : TxSession) (i : Nat),
      runTx s steps i none =
        (⟨steps.foldl (fun d f => f d) s.current,
          steps.foldl (fun d f => f d) s.current⟩, true) := by
  intro steps
  induction steps with
  | nil => intro s i; unfold runTx; simp
  | cons st rest ih =>
    intro s i
    unfold runTx
    simp only [List.foldl_cons]
    rw [if_neg (by simp)]
    exact ih { s with current := st s.current } (i + 1)

lemma foldl_row_steps :
    ∀ (rows : List UserAnswerRow) (d : DB),
      (rows.map (fun row => fun d =>
        ({ d with
            user_answers := d.user_answers ++ [row],
            next_answer_id := d.next_answer_id + 1 } : DB))).foldl
        (fun d f => f d) d =
      { d with
          user_answers := d.user_answers ++ rows,
          next_answer_id := d.next_answer_id + rows.length } := by
  intro rows
  induction rows with
  | nil =>
    intro d
    cases d
    simp
  | cons r rows ih =>
    intro d
    rw [List.map_cons, List.foldl_cons, ih]
    cases d
    simp
    omega

/-- The write steps of `save_user_answers`, run to completion, produce exactly
the store `save_user_answers` commits. -/
lemma save_steps_apply (db : DB) (data : UserAnswerCreate) :
    (save_write_steps db data).foldl (fun d f => f d) db =
      (save_user_answers db data).db := by
  unfold save_write_steps save_user_answers
  rw [List.foldl_append, foldl_row_steps]
  rfl

/-- C3 counterexample: the frequent-question batch upsert is not one atomic
transaction. Over a store with questions 1 and 2 and no frequent questions, a
batch of two valid items with a storage failure injected at the second item
leaves the first item's row committed: the operation raised before completing,
yet a row it wrote is persisted and visible. -/
theorem batch_upsert_not_atomic_counterexample :
    (batch_create_tx ⟨exampleDb, exampleDb⟩
        [⟨1, 0, "E"⟩, ⟨2, 0, "E"⟩] 0 (some 1)).1.committed.frequent_questions.length = 1 ∧
    exampleDb.frequent_questions.length = 0 ∧
    (batch_create_tx ⟨exampleDb, exampleDb⟩
        [⟨1, 0, "E"⟩, ⟨2, 0, "E"⟩] 0 (some 1)).1.committed ≠ exampleDb := by
  refine ⟨by decide, by decide, ?_⟩
  intro h
  have h1 : (batch_create_tx ⟨exampleDb, exampleDb⟩
      [⟨1, 0, "E"⟩, ⟨2, 0, "E"⟩] 0
      (some 1)).1.committed.frequent_questions.length = 1 := by decide
  rw [h] at h1
  exact absurd h1 (by decide)

/-- Processing a batch with a failure at item `k` commits exactly the effect
of the first `k` items (per-item atomicity). -/
lemma batch_create_tx_fail_prefix :
    ∀ (items : List FrequentQuestionCreate) (s : TxSession) (i k : Nat),
      (batch_create_tx s items i (some (i + k))).1.committed =
        (batch_create_tx s (items.take k) i none).1.committed := by
  intro items
  induction items with
  | nil =>
    intro s i k
    rw [List.take_nil]
    rfl
  | cons it rest ih =>
    intro s i k
    cases k with
    | zero =>
      unfold batch_create_tx
      simp
    | succ k' =>
      have hne : ¬ (some (i + (k' + 1)) = some i) := by simp
      have harr : i + (k' + 1) = (i + 1) + k' := by omega
      rw [List.take_succ_cons]
      unfold batch_create_tx
      rw [if_neg hne, if_neg (by simp)]
      cases hcr : create_frequent_question s.current it with
      | error msg =>
        rw [harr]
        exact ih s (i + 1) k'
      | ok db1 =>
        simp only
        rw [harr]
        exact ih ⟨db1, db1⟩ (i + 1) k'

/-- C3 amended: the answer batch plus its `UserStat` snapshot is atomic — a
failure at any write or at the commit leaves the committed store unchanged,
and a complete run commits exactly the rows `save_user_answers` writes. The
frequent-question batch upsert, however, commits after every item: a failure
while processing item `k` persists exactly the first `k` items' upserts, so a
mid-batch failure leaves a partial (per-item) result visible rather than
rolling the whole batch back. -/
theorem transaction_atomicity_amended :
    (∀ (s : TxSession) (data : UserAnswerCreate) (k : Nat),
      k ≤ (save_write_steps s.current data).length →
      (save_user_answers_tx s data (some k)).1.committed = s.committed) ∧
    (∀ (s : TxSession) (data : UserAnswerCreate),
      (save_user_answers_tx s data none).1 =
        ⟨(save_user_answers s.current data).db,
         (save_user_answers s.current data).db⟩) ∧
    (∀ (s : TxSession) (items : List FrequentQuestionCreate) (k : Nat),
      (batch_create_tx s items 0 (some k)).1.committed =
        (batch_create_tx s (items.take k) 0 none).1.committed) := by
  refine ⟨?_, ?_, ?_⟩
  · intro s data k hk
    unfold save_user_answers_tx
    have h := runTx_fail_committed (save_write_steps s.current data) s 0 k hk
    simpa using h
  · intro s data
    unfold save_user_answers_tx
    rw [runTx_none, save_steps_apply]
  · intro s items k
    have h := batch_create_tx_fail_prefix items s 0 k
    simpa using h

/-- Witness for `transaction_atomicity_amended`: a failure at the very first
write of an answer batch persists nothing, and a frequent-question batch of
two items failing at item 1 commits exactly the first item's upsert. -/
theorem transaction_atomicity_amended_witness :
    ((0 : Nat) ≤ (save_write_steps exampleDb exampleBatch).length ∧
     (save_user_answers_tx ⟨exampleDb, exampleDb⟩ exampleBatch
        (some 0)).1.committed = exampleDb) ∧
    (batch_create_tx ⟨exampleDb, exampleDb⟩
        [⟨1, 0, "E"⟩, ⟨2, 0, "E"⟩] 0 (some 1)).1.committed =
      (batch_create_tx ⟨exampleDb, exampleDb⟩
        ([⟨1, 0, "E"⟩, ⟨2, 0, "E"⟩].take 1) 0 none).1.committed :=
  ⟨⟨Nat.zero_le _,
    transaction_atomicity_amended.1 ⟨exampleDb, exampleDb⟩ exampleBatch 0
      (Nat.zero_le _)⟩,
   transaction_atomicity_amended.2.2 ⟨exampleDb, exampleDb⟩
     [⟨1, 0, "E"⟩, ⟨2, 0, "E"⟩] 1⟩

/-! ### C9: question-id derivation from filenames -/

lemma digitRun_digits (l : List Char) : ∀ c ∈ digitRun l, c.isDigit = true :=
  fun _ hc => List.mem_takeWhile_imp hc

lemma pageCapture_digits :
    ∀ (l : List Char) (d : List Char), pageCapture l = some d →
      d ≠ [] ∧ ∀ c ∈ d, c.isDigit = true := by
  intro l
  induction l with
  | nil => intro d h; cases h
  | cons c cs ih =>
    intro d h
    unfold pageCapture at h
    cases hc : ((c :: cs).take 6 == "_page_".toList &&
        !(digitRun ((c :: cs).drop 6)).isEmpty) with
    | true =>
      rw [hc, if_pos rfl] at h
      injection h with h
      subst h
      have h2 := (Bool.and_eq_true _ _ ▸ hc).2
      refine ⟨?_, digitRun_digits _⟩
      intro hnil
      rw [hnil] at h2
      exact absurd h2 (by simp)
    | false =>
      rw [hc] at h
      simp only [Bool.false_eq_true, if_false] at h
      exact ih d h

lemma sepDigitsCapture_digits :
    ∀ (l : List Char) (d : List Char), sepDigitsCapture l = some d →
      d ≠ [] ∧ ∀ c ∈ d, c.isDigit = true := by
  intro l
  induction l with
  | nil => intro d h; cases h
  | cons c cs ih =>
    intro d h
    unfold sepDigitsCapture at h
    cases hc : ((c == '_' || c == '-') && !(digitRun cs).isEmpty) with
    | true =>
      rw [hc, if_pos rfl] at h
      injection h with h
      subst h
      have h2 := (Bool.and_eq_true _ _ ▸ hc).2
      refine ⟨?_, digitRun_digits _⟩
      intro hnil
      rw [hnil] at h2
      exact absurd h2 (by simp)
    | false =>
      rw [hc] at h
      simp only [Bool.false_eq_true, if_false] at h
      exact ih d h

lemma leadingDigits_digits (l : List Char) (d : List Char)
    (h : leadingDigits l = some d) : d ≠ [] ∧ ∀ c ∈ d, c.isDigit = true := by
  unfold leadingDigits at h
  cases hc : (digitRun l).isEmpty with
  | true => rw [hc, if_pos rfl] at h; cases h
  | false =>
    rw [hc] at h
    simp only [Bool.false_eq_true, if_false] at h
    injection h with h
    subst h
    refine ⟨?_, digitRun_digits _⟩
    intro hnil
    rw [hnil] at hc
    exact absurd hc (by simp)

/-- C9 counterexample: for a filename matching none of the patterns, the
derived identifier is the constant `"000"` (giving `"Q000"` with the default
prefix), not the raw filename stem `"sample"` as the spec claims. -/
theorem question_id_fallback_counterexample :
    extract_question_number "sample.md" = "000" ∧
    filenameStem "sample.md" = "sample" ∧
    derive_question_id "Q" "sample.md" = "Q000" ∧
    extract_question_number "sample.md" ≠ filenameStem "sample.md" ∧
    derive_question_id "Q" "sample.md" ≠ "Q" ++ filenameStem "sample.md" :=
  ⟨by decide, by decide, by decide, by decide, by decide⟩

/-- C9 amended: the question number is taken from the first matching filename
pattern — a `_page_<digits>` segment, then a `<'_' or '-'><digits>` segment,
then a leading digit run, each capture a non-empty run of digits — and when no
pattern matches, the number falls back to the constant `"000"`, so the derived
identifier is `prefix ++ "000"` (not the raw filename stem). -/
theorem question_id_derivation (filename prefixStr : String) :
    (∀ d, pageCapture filename.toList = some d →
      extract_question_number filename = String.mk d ∧
      d ≠ [] ∧ ∀ c ∈ d, c.isDigit = true) ∧
    (pageCapture filename.toList = none →
      ∀ d, sepDigitsCapture filename.toList = some d →
        extract_question_number filename = String.mk d ∧
        d ≠ [] ∧ ∀ c ∈ d, c.isDigit = true) ∧
    (pageCapture filename.toList = none →
      sepDigitsCapture filename.toList = none →
      ∀ d, leadingDigits filename.toList = some d →
        extract_question_number filename = String.mk d ∧
        d ≠ [] ∧ ∀ c ∈ d, c.isDigit = true) ∧
    (pageCapture filename.toList = none →
      sepDigitsCapture filename.toList = none →
      leadingDigits filename.toList = none →
      extract_question_number filename = "000" ∧
      derive_question_id prefixStr filename = prefixStr ++ "000") := by
  refine ⟨?_, ?_, ?_, ?_⟩
  · intro d h
    refine ⟨?_, pageCapture_digits _ d h⟩
    unfold extract_question_number
    rw [h]
  · intro h1 d h
    refine ⟨?_, sepDigitsCapture_digits _ d h⟩
    unfold extract_question_number
    rw [h1, h]
  · intro h1 h2 d h
    refine ⟨?_, leadingDigits_digits _ d h⟩
    unfold extract_question_number
    rw [h1, h2, h]
  · intro h1 h2 h3
    have he : extract_question_number filename = "000" := by
      unfold extract_question_number
      rw [h1, h2, h3]
    refine ⟨he, ?_⟩
    unfold derive_question_id
    rw [he]
    rfl

/-- Witness for `question_id_derivation`: a `_page_` filename captures its
page digits, and a pattern-free filename falls back to `"Q000"`. -/
theorem question_id_derivation_witness :
    (pageCapture "a_page_12x.md".toList = some ['1', '2'] ∧
     extract_question_number "a_page_12x.md" = String.mk ['1', '2'] ∧
     ['1', '2'] ≠ ([] : List Char) ∧ ∀ c ∈ ['1', '2'], c.isDigit = true) ∧
    (pageCapture "sample.md".toList = none ∧
     sepDigitsCapture "sample.md".toList = none ∧
     leadingDigits "sample.md".toList = none ∧
     (extract_question_number "sample.md" = "000" ∧
      derive_question_id "Q" "sample.md" = "Q" ++ "000")) :=
  ⟨⟨by decide,
    (question_id_derivation "a_page_12x.md" "Q").1 ['1', '2'] (by decide)⟩,
   ⟨by decide, by decide, by decide,
    (question_id_derivation "sample.md" "Q").2.2.2 (by decide) (by decide)
      (by decide)⟩⟩

end OcrExam
